import Mathlib

/-!
# TSGDaily-BE : the `user` GraphQL resolver of `login.go`

A shallow embedding of `src/login.go`: the `User` row type, the schema built in
`init`, the `Resolve` closure of root field `user`, the gin middleware
`setDBContext` and the context and query built in `main`.

The calls the source makes into its libraries are given by small models that
follow the behaviour of those libraries:

* `context.WithValue` / `Context.Value` (Go standard library),
* method calls through nil values and the comma-ok type assertions
  `x.(*gorm.DB)` and `x.(string)` (Go language),
* `db.Where(cond, args...).First(&dest)` of gorm, which sends
  `SELECT * FROM users WHERE cond ORDER BY users.id LIMIT 1` to the store and
  reports `gorm.ErrRecordNotFound` when no row is yielded,
* the part of graphql-go that validates a document whose only field is `user`,
  coerces the variables of the request, runs the resolver, recovers its
  panics and projects the returned struct through the object type `User`.

The store executes statements and may change under them; the resolver is run
against a store and, for calls in a row, inside a process that also holds the
lines printed so far.
-/

namespace Login

/-! ## Data model -/

/-- The struct `User` (login.go 19-24): one row of table `users`. -/
structure User where
  ID : Int
  Username : String
  Email : String
  Password : String
deriving DecidableEq, Repr

/-- The zero value of `User`, as produced by `var user User`. -/
def User.zero : User := ⟨0, "", "", ""⟩

/-- Go `error` values that reach the resolver. -/
inductive GoError
  /-- The error `gorm.ErrRecordNotFound` -/
  | ErrRecordNotFound
  /-- A failure of the store while executing a statement, with its cause -/
  | storeFailure (cause : String)
deriving DecidableEq, Repr

/-- The database behind a gorm session. `users` lists the rows of table `users`
in the order in which the store yields them when no ORDER BY is given;
`fault` is `some c` when executing a statement fails with cause `c`
(connection lost, timeout, ...). -/
structure Store where
  users : List User
  fault : Option String
deriving DecidableEq, Repr

/-- Values of Go type `*gorm.DB`: the nil pointer, a session made by `gorm.Open`
(login.go 113) at some address, or a pointer to a `gorm.DB` that `gorm.Open`
did not make (the zero-valued struct of `&gorm.DB{}`). -/
inductive DBPointer
  | nil
  | session (addr : Nat)
  | zero (addr : Nat)
deriving DecidableEq, Repr

/-- Values of Go type `interface{}` that occur in contexts and argument maps;
`nil` is the nil interface. -/
inductive GoValue
  | nil
  | string (s : String)
  | int (n : Int)
  | bool (b : Bool)
  | gormDB (p : DBPointer)
deriving DecidableEq, Repr

/-- A `context.Context` that is not nil: `context.Background()` extended by
`context.WithValue`. -/
inductive Context
  | Background
  | WithValue (parent : Context) (key val : GoValue)
deriving DecidableEq, Repr

/-- The method `ctx.Value(key)`: the value of the innermost binding whose key equals
`key`, the nil interface when there is none. -/
def Context.Value : Context → GoValue → GoValue
  | .Background, _ => .nil
  | .WithValue parent k v, key => if k = key then v else parent.Value key

/-- The assertion `v.(*gorm.DB)` in comma-ok form: the pointer and `ok`. -/
def assertGormDB : GoValue → DBPointer × Bool
  | .gormDB p => (p, true)
  | _ => (.nil, false)

/-- The assertion `v.(string)` in comma-ok form: the string (the zero value `""`
when the assertion fails) and `ok`. -/
def assertString : GoValue → String × Bool
  | .string s => (s, true)
  | _ => ("", false)

/-- Indexing `m[key]` of a `map[string]interface{}`: the nil interface when the
key is absent. -/
def mapIndex (m : List (String × GoValue)) (key : String) : GoValue :=
  (m.lookup key).getD .nil

/-! ## gorm and the store -/

/-- Text columns of table `users` (gorm tags of login.go 21-23). -/
inductive Column
  | username
  | email
  | password
deriving DecidableEq, Repr

/-- The value of a text column in a row. -/
def User.column (r : User) : Column → String
  | .username => r.Username
  | .email => r.Email
  | .password => r.Password

/-- A gorm condition string with `?` placeholders; `eq col i` is `col = ?` whose
placeholder is the `i`-th one of the string, counted from 0 and from the left,
hence bound to the `i`-th variadic argument of `Where`. -/
inductive Cond
  | eq (col : Column) (i : Nat)
  | or (l r : Cond)
deriving DecidableEq, Repr

/-- Whether a row satisfies a condition under the given arguments. -/
def Cond.holds (args : List String) (r : User) : Cond → Bool
  | .eq col i => args.get? i == some (r.column col)
  | .or l r' => l.holds args r || r'.holds args r

/-- The condition string of login.go 82: `"username = ? OR email = ?"`. -/
def whereCond : Cond := .or (.eq .username 0) (.eq .email 1)

/-- The clause `ORDER BY users.id`: the rows sorted by ascending primary key. -/
def orderByID (rows : List User) : List User :=
  rows.insertionSort (fun a b => a.ID ≤ b.ID)

/-- Statements on table `users` that a client can send to the store. -/
inductive Statement
  /-- The statement `SELECT * FROM users WHERE cond`, with `ORDER BY users.id` when
  `ordered`, and with `LIMIT n` when `limit` is `some n` -/
  | Select (cond : Cond) (args : List String) (ordered : Bool) (limit : Option Nat)
  /-- The statement `INSERT INTO users` of one row -/
  | Insert (row : User)
  /-- The statement `DELETE FROM users WHERE cond` -/
  | Delete (cond : Cond) (args : List String)
deriving DecidableEq, Repr

/-- The store executes a statement: the store after it, and the rows it yields or
the cause of its failure. -/
def Store.exec (st : Store) (stmt : Statement) : Store × Except String (List User) :=
  match st.fault with
  | some c => (st, .error c)
  | none =>
    match stmt with
    | .Select cond args ordered limit =>
      let rows := st.users.filter (fun r => cond.holds args r)
      let rows := if ordered then orderByID rows else rows
      (st, .ok (match limit with
        | some n => rows.take n
        | none => rows))
    | .Insert row => (⟨st.users ++ [row], none⟩, .ok [])
    | .Delete cond args => (⟨st.users.filter (fun r => !cond.holds args r), none⟩, .ok [])

/-- What a finished gorm statement leaves behind: the destination struct, the
`Error` field of the returned handle, and the store after the statement. -/
structure QueryResult where
  dest : User
  Error : Option GoError
  store : Store
deriving DecidableEq, Repr

/-- The statement behind `db.Where(cond, args...).First(&dest)` with `dest` a zero
`User`, for a session `db`: gorm sends
`SELECT * FROM users WHERE cond ORDER BY users.id LIMIT 1`; a failure of the
store becomes `Error`; when no row is yielded `Error` is
`gorm.ErrRecordNotFound`; otherwise the row is scanned into `dest`. -/
def First (st : Store) (cond : Cond) (args : List String) : QueryResult :=
  match st.exec (.Select cond args true (some 1)) with
  | (st1, .error c) => ⟨User.zero, some (.storeFailure c), st1⟩
  | (st1, .ok []) => ⟨User.zero, some .ErrRecordNotFound, st1⟩
  | (st1, .ok (r :: _)) => ⟨r, none, st1⟩

/-- A run of Go code: it returns a value or it panics. -/
inductive Run (α : Type)
  | returns (a : α)
  | panics (msg : String)
deriving DecidableEq, Repr

/-- The message of the panic raised by a method call through a nil value. -/
def nilDereference : String :=
  "runtime error: invalid memory address or nil pointer dereference"

/-- The call chain `db.Where(cond, args...).First(&dest)` on a pointer `db` of type
`*gorm.DB` (login.go 82): through the nil pointer and through a pointer to a
zero-valued `gorm.DB` the call `db.Where` panics; on a session it runs
`First`. -/
def WhereFirst (db : DBPointer) (st : Store) (cond : Cond) (args : List String) :
    Run QueryResult :=
  match db with
  | .nil => .panics nilDereference
  | .zero _ => .panics nilDereference
  | .session _ => .returns (First st cond args)

/-! ## The resolver -/

/-- What the resolver does besides returning. -/
inductive Effect
  /-- A line written by `fmt.Println` -/
  | Println (line : String)
  /-- A SELECT sent through the handle `handle` -/
  | Select (handle : DBPointer) (cond : Cond) (args : List String)
deriving DecidableEq, Repr

/-- The fields of `graphql.ResolveParams` read by the resolver; `Context` is `none`
when the field holds the nil interface. -/
structure ResolveParams where
  Context : Option Context
  Args : List (String × GoValue)
deriving DecidableEq, Repr

/-- One normal return of the resolver: the returned pair `(interface{}, error)` (a
nil interface is `none`, a nil error is `none`), what it did, and the store
after. -/
structure Outcome where
  result : Option User
  err : Option GoError
  effects : List Effect
  store : Store
deriving DecidableEq, Repr

/-- The closure `Resolve` of root field `user` (login.go 63-88), run against the
store `st` that stands behind every session. The method call
`p.Context.Value("db")` of login.go 65 panics when `p.Context` is nil. -/
def Resolve (p : ResolveParams) (st : Store) : Run Outcome :=
  match p.Context with
  | none => .panics nilDereference
  | some ctx =>
    let (db, ok) := assertGormDB (ctx.Value (.string "db"))
    if !ok then
      .returns ⟨none, none, [.Println "db is not found in context"], st⟩
    else if db = .nil then
      .returns ⟨none, none, [.Println "db is nil"], st⟩
    else
      let username := (assertString (mapIndex p.Args "username")).1
      let email := (assertString (mapIndex p.Args "email")).1
      match WhereFirst db st whereCond [username, email] with
      | .panics msg => .panics msg
      | .returns q =>
        match q.Error with
        | some err =>
          .returns ⟨none, some err, [.Select db whereCond [username, email]], q.store⟩
        | none =>
          .returns ⟨some q.dest, none, [.Select db whereCond [username, email]], q.store⟩

/-- The state of the running process that calls of the resolver share: the store
and the lines written to standard output so far. -/
structure Process where
  store : Store
  stdout : List String
deriving DecidableEq, Repr

/-- The lines that a list of effects writes to standard output. -/
def printed : List Effect → List String
  | [] => []
  | .Println line :: es => line :: printed es
  | .Select _ _ _ :: es => printed es

/-- One call of the resolver in the running process: the pair it returns (or its
panic), and the process after the call. -/
def invoke (w : Process) (p : ResolveParams) :
    Run (Option User × Option GoError) × Process :=
  match Resolve p w.store with
  | .panics msg => (.panics msg, w)
  | .returns o => (.returns (o.result, o.err), ⟨o.store, w.stdout ++ printed o.effects⟩)

/-! ## The schema -/

/-- The scalar types `graphql.Int` and `graphql.String`. -/
inductive Scalar
  | Int
  | String
deriving DecidableEq, Repr

/-- The type of an argument or of a variable: a scalar, or `graphql.NewNonNull` of
a scalar. -/
inductive InputType
  | Nullable (s : Scalar)
  | NonNull (s : Scalar)
deriving DecidableEq, Repr

/-- An object type as given to `graphql.NewObject`: name and fields. -/
structure ObjectConfig where
  Name : String
  Fields : List (String × Scalar)
deriving DecidableEq, Repr

/-- A field of the root query: result type (`Type` in the source) and declared
arguments (the resolver is `Resolve`). -/
structure FieldConfig where
  Type_ : ObjectConfig
  Args : List (String × InputType)
deriving DecidableEq, Repr

/-- The object type `User` (login.go 39-47). -/
def userType : ObjectConfig :=
  ⟨"User", [("id", .Int), ("username", .String), ("email", .String), ("password", .String)]⟩

/-- The root field `user` (login.go 53-62). -/
def userField : FieldConfig :=
  ⟨userType, [("username", .NonNull .String), ("email", .NonNull .String)]⟩

/-- The fields of the root query type `Query` (login.go 50-91). -/
def rootQuery : List (String × FieldConfig) := [("user", userField)]

/-! ## graphql-go: requests -/

/-- A literal written in the query document; `ListValue` and `ObjectValue` stand for
a list literal and an object literal, whatever they hold. -/
inductive Literal
  | StringValue (s : String)
  | IntValue (n : Int)
  | FloatValue (text : String)
  | BooleanValue (b : Bool)
  | EnumValue (name : String)
  | NullValue
  | ListValue
  | ObjectValue
deriving DecidableEq, Repr

/-- What a document writes for an argument: a literal or a variable `$name`. -/
inductive ArgValue
  | literal (l : Literal)
  | variable (name : String)
deriving DecidableEq, Repr

/-- A value that the request gives to a variable. A number, a list and an object
are represented by the text that `fmt.Sprintf("%v", v)` prints for the
decoded value. -/
inductive VarValue
  | null
  | string (s : String)
  | bool (b : Bool)
  | number (printed : String)
  | composite (printed : String)
deriving DecidableEq, Repr

/-- A request whose document is one query operation with the single field `user`:
the variable definitions `$name: type` of the operation, the arguments
written on `user`, the names of the fields selected inside `user`, and the
values the request gives to variables. -/
structure Request where
  variableDefinitions : List (String × InputType)
  arguments : List (String × ArgValue)
  selection : List String
  VariableValues : List (String × VarValue)
deriving DecidableEq, Repr

/-- The request `query { user(username: "...", email: "...") { selection } }`
without variables. -/
def userQuery (username email : String) (selection : List String) : Request :=
  ⟨[], [("username", .literal (.StringValue username)), ("email", .literal (.StringValue email))],
    selection, []⟩

/-- The request that `main` executes at startup (login.go 119-134). -/
def mainQuery : Request := userQuery "testuser" "" ["password"]

/-! ## graphql-go: validation and coercion -/

/-- Whether a literal is a value of a scalar type: `String` takes string literals
only, `Int` takes integer literals. -/
def Scalar.accepts : Scalar → Literal → Bool
  | .String, .StringValue _ => true
  | .Int, .IntValue _ => true
  | _, _ => false

/-- Whether a literal is a value of an argument type. The literal `null` is a value
of no type: the parser of graphql-go refuses it. -/
def InputType.accepts : InputType → Literal → Bool
  | .Nullable s, v => s.accepts v
  | .NonNull s, v => s.accepts v

/-- Whether a variable of type `v` may stand where an argument of type `t` is
expected. -/
def InputType.allowedIn (v t : InputType) : Bool :=
  match v, t with
  | .NonNull a, .NonNull b => a = b
  | .NonNull a, .Nullable b => a = b
  | .Nullable a, .Nullable b => a = b
  | .Nullable _, .NonNull _ => false

/-- Whether the selection inside a field of object type `t` is valid: it is not
empty and names fields of `t` or `__typename`. -/
def selectionOK (t : ObjectConfig) (sel : List String) : Bool :=
  !sel.isEmpty && sel.all (fun f => f == "__typename" || (t.Fields.lookup f).isSome)

/-- Whether a written argument is valid: it is declared, and its literal is a value
of the declared type, or its variable is defined with a type allowed there. -/
def argumentOK (decl vars : List (String × InputType)) (a : String × ArgValue) : Bool :=
  match decl.lookup a.1, a.2 with
  | some t, .literal l => t.accepts l
  | some t, .variable v =>
    match vars.lookup v with
    | some vt => vt.allowedIn t
    | none => false
  | none, _ => false

/-- The validation of the document of a request against field `f`: the selection is
valid; every written argument is valid and written once; every argument of
non-null type is written; every variable is defined once and used. -/
def validate (f : FieldConfig) (req : Request) : Bool :=
  selectionOK f.Type_ req.selection
  && req.arguments.all (argumentOK f.Args req.variableDefinitions)
  && decide (req.arguments.map Prod.fst).Nodup
  && f.Args.all (fun d =>
      match d.2 with
      | .NonNull _ => (req.arguments.lookup d.1).isSome
      | .Nullable _ => true)
  && decide (req.variableDefinitions.map Prod.fst).Nodup
  && req.variableDefinitions.all (fun d => req.arguments.any (fun a => a.2 = .variable d.1))

/-- The function `coerceString` of graphql-go on the value of a variable: a string is
kept, any other value that is not null becomes the text that
`fmt.Sprintf("%v", v)` prints. -/
def coerceString : VarValue → Option String
  | .null => none
  | .string s => some s
  | .bool b => some (if b then "true" else "false")
  | .number printed => some printed
  | .composite printed => some printed

/-- The value of one defined variable, `none` when the request is refused: a
variable of non-null type needs a value that is not null. A variable of type
`Int` passes validation against no argument of `user`, its coercion is left
out. -/
def variableValue (t : InputType) (given : Option VarValue) : Option (Option GoValue) :=
  match t, given.getD .null with
  | .NonNull _, .null => none
  | .Nullable _, .null => some none
  | .NonNull .String, v => some ((coerceString v).map .string)
  | .Nullable .String, v => some ((coerceString v).map .string)
  | .NonNull .Int, _ => none
  | .Nullable .Int, _ => none

/-- The values of the defined variables, `none` when one of them is refused. -/
def getVariableValues (defs : List (String × InputType)) (given : List (String × VarValue)) :
    Option (List (String × GoValue)) :=
  match defs with
  | [] => some []
  | d :: ds =>
    match variableValue d.2 (given.lookup d.1), getVariableValues ds given with
    | some (some v), some rest => some ((d.1, v) :: rest)
    | some none, some rest => some rest
    | _, _ => none

/-- The Go value of a literal, as placed in `ResolveParams.Args`. -/
def Literal.value : Literal → GoValue
  | .StringValue s => .string s
  | .IntValue n => .int n
  | .BooleanValue b => .bool b
  | _ => .nil

/-- The argument map handed to the resolver: for every declared argument that is
written, the value of its literal or of its variable, when that is not
null. -/
def argumentValues (decl : List (String × InputType)) (written : List (String × ArgValue))
    (vars : List (String × GoValue)) : List (String × GoValue) :=
  decl.filterMap fun d =>
    match written.lookup d.1 with
    | some (.literal l) => if l.value = .nil then none else some (d.1, l.value)
    | some (.variable v) => (vars.lookup v).map fun x => (d.1, x)
    | none => none

/-! ## graphql-go: execution -/

/-- A leaf value of a response. -/
inductive JSON
  | null
  | number (n : Int)
  | string (s : String)
deriving DecidableEq, Repr

/-- Whether two names are equal up to the case of their ASCII letters, as
`strings.EqualFold` decides for the names that occur here. -/
def equalFold (a b : String) : Bool :=
  a.data.map Char.toLower == b.data.map Char.toLower

/-- The function `graphql.DefaultResolveFn` on a `User` struct: the value of the
struct field whose name equals the field name up to case. -/
def User.field (u : User) (name : String) : GoValue :=
  match ([("ID", GoValue.int u.ID), ("Username", .string u.Username),
      ("Email", .string u.Email), ("Password", .string u.Password)].find?
      fun f => equalFold f.1 name) with
  | some f => f.2
  | none => .nil

/-- The serialisation of a resolved value by a scalar type: `graphql.Int` gives null
for an integer outside 32 bits, `graphql.String` keeps a string. The other
pairs do not arise from `userType` and `User`. -/
def Scalar.serialize : Scalar → GoValue → JSON
  | .Int, .int n => if -2147483648 ≤ n ∧ n ≤ 2147483647 then .number n else .null
  | .String, .string s => .string s
  | _, _ => .null

/-- The projection of a returned `User` through object type `t` for a selection: one
entry for every selected name, in the order of first occurrence. -/
def projectUser (t : ObjectConfig) (sel : List String) (u : User) : List (String × JSON) :=
  sel.eraseDups.map fun f =>
    if f = "__typename" then (f, .string t.Name)
    else
      match t.Fields.lookup f with
      | some s => (f, s.serialize (u.field f))
      | none => (f, .null)

/-- An entry of the error list of an executed request. -/
inductive ResponseError
  /-- The error returned by the resolver -/
  | resolver (cause : GoError)
  /-- The panic of the resolver, recovered by graphql-go -/
  | recovered (panicMsg : String)
deriving DecidableEq, Repr

/-- The response to a request. `refused` is the response to a request that is not
executed (the document does not parse or is not valid, or a variable is
refused): `data` is null and the error list holds the errors found, one at
least. `executed user errors` is the response of an execution: `data.user`
is null for `none` and holds the listed fields otherwise. -/
inductive Response
  | refused
  | executed (user : Option (List (String × JSON))) (errors : List ResponseError)
deriving DecidableEq, Repr

/-- Whether the error list of a response holds an error. -/
def Response.hasErrors : Response → Bool
  | .refused => true
  | .executed _ errors => !errors.isEmpty

/-- The result of `graphql.Do` (login.go 130-134, and the handler of login.go 153)
on a request: a request that fails validation or the coercion of its
variables is refused and the resolver does not run; otherwise the resolver
runs, a returned error or a recovered panic sets `data.user` to null and
enters the error list, and a returned `User` is projected through
`userType`. -/
def Do (req : Request) (ctx : Option Context) (st : Store) : Response × List Effect × Store :=
  if validate userField req then
    match getVariableValues req.variableDefinitions req.VariableValues with
    | none => (.refused, [], st)
    | some vars =>
      match Resolve ⟨ctx, argumentValues userField.Args req.arguments vars⟩ st with
      | .panics msg => (.executed none [.recovered msg], [], st)
      | .returns o =>
        match o.err with
        | some e => (.executed none [.resolver e], o.effects, o.store)
        | none =>
          (.executed (o.result.map (projectUser userField.Type_ req.selection)) [],
            o.effects, o.store)
  else (.refused, [], st)

/-! ## The middleware and `main` -/

/-- The part of `*http.Request` used here: its context, which is never nil. -/
structure HttpRequest where
  ctx : Context
deriving DecidableEq, Repr

/-- The method `r.Context()`. -/
def HttpRequest.Context (r : HttpRequest) : Login.Context := r.ctx

/-- The method `r.WithContext(ctx)`: a copy of the request with its context replaced. -/
def HttpRequest.WithContext (_r : HttpRequest) (ctx : Login.Context) : HttpRequest := ⟨ctx⟩

/-- The part of `*gin.Context` used here: the request. -/
structure GinContext where
  Request : HttpRequest
deriving DecidableEq, Repr

/-- The middleware `setDBContext(db)` (login.go 102-108). `Next` stands for the rest
of the handler chain, which `c.Next()` runs on `c`. -/
def setDBContext {α : Type} (db : DBPointer) (Next : GinContext → α) (c : GinContext) : α :=
  let ctx := Context.WithValue c.Request.Context (.string "db") (.gormDB db)
  let c : GinContext := ⟨c.Request.WithContext ctx⟩
  Next c

/-- The context `c` built in `main` (login.go 127). -/
def mainContext (db : DBPointer) : Context :=
  Context.WithValue Context.Background (.string "db") (.gormDB db)

/-- A request as the handler of login.go 153 takes it: the document
`query($u: String!) { user(username: $u, email: "") { password } }` with the
variables `{"u": 123}`, the number being printed as `123`. -/
def numberVariableRequest : Request :=
  ⟨[("u", .NonNull .String)],
    [("username", .variable "u"), ("email", .literal (.StringValue ""))],
    ["password"], [("u", .number "123")]⟩

/-! ## The store gateway as the specification words it -/

/-- The operation `findUserByUsernameOrEmail` as the specification describes it:
`SELECT * FROM users WHERE username = :u OR email = :e LIMIT 1` with no
ordering, hence the first matching row in the order of the store. -/
def findUserByUsernameOrEmail (st : Store) (username email : String) : Option User :=
  st.users.find? fun r => r.Username == username || r.Email == email

/-! ## Auxiliary facts: the store and gorm -/

instance : IsTotal User (fun a b => a.ID ≤ b.ID) := ⟨fun a b => le_total a.ID b.ID⟩

instance : IsTrans User (fun a b => a.ID ≤ b.ID) := ⟨fun _ _ _ h1 h2 => le_trans h1 h2⟩

/-- The first row under `ORDER BY users.id` is a row of the input whose key is least. -/
theorem orderByID_cons (l : List User) (r : User) (t : List User) (h : orderByID l = r :: t) :
    r ∈ l ∧ ∀ r' ∈ l, r.ID ≤ r'.ID := by
  have hs := List.sorted_insertionSort (fun a b : User => a.ID ≤ b.ID) l
  have hp := List.perm_insertionSort (fun a b : User => a.ID ≤ b.ID) l
  unfold orderByID at h
  rw [h] at hs hp
  refine ⟨hp.subset (List.mem_cons_self _ _), ?_⟩
  intro r' hr'
  have hm : r' ∈ r :: t := hp.symm.subset hr'
  rcases List.mem_cons.mp hm with h1 | h1
  · rw [h1]
  · exact List.rel_of_sorted_cons hs r' h1

/-- Ordering yields no row exactly when there is no row. -/
theorem orderByID_eq_nil (l : List User) : orderByID l = [] ↔ l = [] := by
  have hp := List.perm_insertionSort (fun a b : User => a.ID ≤ b.ID) l
  unfold orderByID
  constructor
  · intro h
    rw [h] at hp
    exact List.Perm.eq_nil hp.symm
  · intro h; subst h; rfl

/-- The condition of the lookup compares column `username` with the first argument
and column `email` with the second. -/
theorem whereCond_holds (u e : String) (r : User) :
    whereCond.holds [u, e] r = true ↔ (r.Username = u ∨ r.Email = e) := by
  have h0 : ([u, e] : List String).get? 0 = some u := rfl
  have h1 : ([u, e] : List String).get? 1 = some e := rfl
  simp only [whereCond, Cond.holds, User.column, Bool.or_eq_true, h0, h1, beq_iff_eq,
    Option.some.injEq]
  constructor
  · rintro (h | h)
    · exact Or.inl h.symm
    · exact Or.inr h.symm
  · rintro (h | h)
    · exact Or.inl h.symm
    · exact Or.inr h.symm

/-- A faulty store fails every statement and stays as it is. -/
theorem exec_of_fault (st : Store) (stmt : Statement) (c : String) (h : st.fault = some c) :
    st.exec stmt = (st, .error c) := by
  simp [Store.exec, h]

/-- A healthy store answers the SELECT of `First` and stays as it is. -/
theorem exec_select_first (st : Store) (cond : Cond) (args : List String)
    (h : st.fault = none) :
    st.exec (.Select cond args true (some 1)) =
      (st, .ok ((orderByID (st.users.filter (fun r => cond.holds args r))).take 1)) := by
  simp [Store.exec, h]

/-- A healthy store changes under an INSERT: the store is not fixed by the model. -/
theorem exec_insert (st : Store) (row : User) (h : st.fault = none) :
    (st.exec (.Insert row)).1.users = st.users ++ [row] := by
  simp [Store.exec, h]

/-- A faulty store makes `First` report the fault. -/
theorem First_of_fault (st : Store) (cond : Cond) (args : List String) (c : String)
    (h : st.fault = some c) :
    First st cond args = ⟨User.zero, some (.storeFailure c), st⟩ := by
  simp [First, exec_of_fault st _ c h]

/-- On a healthy store with no selected row `First` reports `ErrRecordNotFound`. -/
theorem First_of_no_row (st : Store) (cond : Cond) (args : List String)
    (h : st.fault = none) (hn : ∀ r ∈ st.users, cond.holds args r = false) :
    First st cond args = ⟨User.zero, some .ErrRecordNotFound, st⟩ := by
  have hf : st.users.filter (fun r => cond.holds args r) = [] := by
    rw [List.filter_eq_nil_iff]
    intro r hr
    simp [hn r hr]
  simp [First, exec_select_first st cond args h, hf, orderByID]

/-- On a healthy store with a selected row `First` scans a selected row of least key. -/
theorem First_of_row (st : Store) (cond : Cond) (args : List String)
    (h : st.fault = none) (r0 : User) (hr0 : r0 ∈ st.users) (hc0 : cond.holds args r0 = true) :
    ∃ r, First st cond args = ⟨r, none, st⟩ ∧ r ∈ st.users ∧ cond.holds args r = true ∧
      ∀ r' ∈ st.users, cond.holds args r' = true → r.ID ≤ r'.ID := by
  cases hh : orderByID (st.users.filter (fun r => cond.holds args r)) with
  | nil =>
    have := (orderByID_eq_nil _).mp hh
    have hm : r0 ∈ st.users.filter (fun r => cond.holds args r) :=
      List.mem_filter.mpr ⟨hr0, hc0⟩
    rw [this] at hm
    simp at hm
  | cons r t =>
    obtain ⟨hmem, hmin⟩ := orderByID_cons _ r t hh
    have hm := List.mem_filter.mp hmem
    refine ⟨r, ?_, hm.1, hm.2, ?_⟩
    · simp [First, exec_select_first st cond args h, hh]
    · intro r' hr' hc'
      exact hmin r' (List.mem_filter.mpr ⟨hr', hc'⟩)

/-- The statement of `First` leaves the store as it was. -/
theorem First_store (st : Store) (cond : Cond) (args : List String) :
    (First st cond args).store = st := by
  cases hf : st.fault with
  | some c => rw [First_of_fault st cond args c hf]
  | none =>
    unfold First
    rw [exec_select_first st cond args hf]
    cases (orderByID (st.users.filter (fun r => cond.holds args r))) with
    | nil => rfl
    | cons r t => rfl

/-! ## Auxiliary facts: the resolver -/

/-- The resolver, when the context yields the session at address `h`: it sends the
lookup with the asserted arguments and returns what `First` left. -/
theorem Resolve_of_session (p : ResolveParams) (ctx : Context) (st : Store) (h : Nat)
    (hc : p.Context = some ctx)
    (hctx : ctx.Value (.string "db") = .gormDB (.session h)) :
    Resolve p st =
      .returns
        ⟨match (First st whereCond [(assertString (mapIndex p.Args "username")).1,
            (assertString (mapIndex p.Args "email")).1]).Error with
          | some _ => none
          | none => some (First st whereCond [(assertString (mapIndex p.Args "username")).1,
              (assertString (mapIndex p.Args "email")).1]).dest,
         (First st whereCond [(assertString (mapIndex p.Args "username")).1,
            (assertString (mapIndex p.Args "email")).1]).Error,
         [.Select (.session h) whereCond [(assertString (mapIndex p.Args "username")).1,
            (assertString (mapIndex p.Args "email")).1]],
         (First st whereCond [(assertString (mapIndex p.Args "username")).1,
            (assertString (mapIndex p.Args "email")).1]).store⟩ := by
  simp only [Resolve, hc, hctx, assertGormDB, WhereFirst]
  cases (First st whereCond [(assertString (mapIndex p.Args "username")).1,
            (assertString (mapIndex p.Args "email")).1]).Error <;> simp

/-- The resolver, when the context yields no pointer that is not nil: one diagnostic
line, a nil result and a nil error. -/
theorem Resolve_of_no_handle (p : ResolveParams) (ctx : Context) (st : Store)
    (hc : p.Context = some ctx)
    (hctx : ∀ d, ctx.Value (.string "db") = .gormDB d → d = .nil) :
    Resolve p st =
      .returns ⟨none, none,
        [.Println (if ctx.Value (.string "db") = .gormDB .nil then "db is nil"
          else "db is not found in context")], st⟩ := by
  simp only [Resolve, hc]
  cases hv : ctx.Value (.string "db") with
  | gormDB d =>
    have := hctx d hv
    subst this
    simp [assertGormDB]
  | nil => simp [assertGormDB]
  | string s => simp [assertGormDB]
  | int n => simp [assertGormDB]
  | bool b => simp [assertGormDB]

/-- The resolver panics when its context is nil. -/
theorem Resolve_of_nil_context (p : ResolveParams) (st : Store) (hc : p.Context = none) :
    Resolve p st = .panics nilDereference := by
  simp [Resolve, hc]

/-- The resolver panics when the context yields a pointer to a `gorm.DB` that
`gorm.Open` did not make. -/
theorem Resolve_of_zero (p : ResolveParams) (ctx : Context) (st : Store) (a : Nat)
    (hc : p.Context = some ctx)
    (hctx : ctx.Value (.string "db") = .gormDB (.zero a)) :
    Resolve p st = .panics nilDereference := by
  simp [Resolve, hc, hctx, assertGormDB, WhereFirst]

/-- Every value under `"db"` is a session, a pointer to a zero-valued `gorm.DB`, or
yields no pointer that is not nil. -/
theorem db_value_cases (ctx : Context) :
    (∃ h, ctx.Value (.string "db") = .gormDB (.session h)) ∨
    (∃ a, ctx.Value (.string "db") = .gormDB (.zero a)) ∨
    (∀ d, ctx.Value (.string "db") = .gormDB d → d = .nil) := by
  cases hv : ctx.Value (.string "db") with
  | gormDB d =>
    cases d with
    | nil => right; right; intro d hd; cases hd; rfl
    | session h => left; exact ⟨h, rfl⟩
    | zero a => right; left; exact ⟨a, rfl⟩
  | nil => right; right; intro d hd; cases hd
  | string s => right; right; intro d hd; cases hd
  | int n => right; right; intro d hd; cases hd
  | bool b => right; right; intro d hd; cases hd

/-- A run of the resolver that returns leaves the store as it was. -/
theorem Resolve_store (p : ResolveParams) (st : Store) (o : Outcome)
    (h : Resolve p st = .returns o) : o.store = st := by
  cases hc : p.Context with
  | none =>
    rw [Resolve_of_nil_context p st hc] at h
    cases h
  | some ctx =>
    rcases db_value_cases ctx with ⟨a, ha⟩ | ⟨a, ha⟩ | hn
    · rw [Resolve_of_session p ctx st a hc ha] at h
      cases h
      exact First_store st _ _
    · rw [Resolve_of_zero p ctx st a hc ha] at h
      cases h
    · rw [Resolve_of_no_handle p ctx st hc hn] at h
      cases h
      rfl

/-- The string that the resolver takes from its argument map: the empty string when
the entry is absent or not a string. -/
theorem assertString_mapIndex (args : List (String × GoValue)) (k : String) :
    (assertString (mapIndex args k)).1 =
      (match args.lookup k with
        | some (.string s) => s
        | _ => "") := by
  unfold mapIndex
  cases hl : args.lookup k with
  | none => rfl
  | some v => cases v <;> rfl

/-! ## Auxiliary facts: graphql-go -/

/-- The document of `userQuery` is valid when its selection is. -/
theorem validate_userQuery (u e : String) (sel : List String)
    (hsel : selectionOK userType sel = true) :
    validate userField (userQuery u e sel) = true := by
  simp [validate, userQuery, userField, hsel, argumentOK, List.lookup, InputType.accepts,
    Scalar.accepts]

/-- The document that `main` executes at startup is valid. -/
theorem validate_mainQuery : validate userField mainQuery = true :=
  validate_userQuery "testuser" "" ["password"] (by decide)

/-- The response to `userQuery`, from the run of the resolver on the two strings. -/
theorem Do_userQuery (u e : String) (sel : List String) (ctx : Option Context) (st : Store)
    (hsel : selectionOK userType sel = true) :
    Do (userQuery u e sel) ctx st =
      match Resolve ⟨ctx, [("username", .string u), ("email", .string e)]⟩ st with
      | .panics msg => (.executed none [.recovered msg], [], st)
      | .returns o =>
        match o.err with
        | some err => (.executed none [.resolver err], o.effects, o.store)
        | none => (.executed (o.result.map (projectUser userType sel)) [], o.effects, o.store) := by
  have hv := validate_userQuery u e sel hsel
  have ha : argumentValues userField.Args (userQuery u e sel).arguments [] =
      [("username", .string u), ("email", .string e)] := by
    simp [argumentValues, userField, userQuery, List.lookup, Literal.value]
  have hg : getVariableValues (userQuery u e sel).variableDefinitions
      (userQuery u e sel).VariableValues = some [] := rfl
  simp only [Do, hv, hg, ha, if_true]
  rfl

/-- A key that no entry of an association list carries is not found by `lookup`. -/
theorem lookup_eq_none_of_absent {β : Type} (k : String) (l : List (String × β))
    (h : ∀ v, (k, v) ∉ l) : l.lookup k = none := by
  induction l with
  | nil => rfl
  | cons a t ih =>
    obtain ⟨k1, v1⟩ := a
    have hne : k ≠ k1 := by
      intro heq
      exact h v1 (by rw [heq]; exact List.mem_cons_self _ _)
    have hb : (k == k1) = false := by simpa using hne
    rw [List.lookup_cons, hb]
    exact ih (fun v hv => h v (List.mem_cons_of_mem _ hv))

/-- A request that fails validation is refused and the resolver does not run. -/
theorem Do_of_invalid (req : Request) (ctx : Option Context) (st : Store)
    (h : validate userField req = false) : Do req ctx st = (.refused, [], st) := by
  simp [Do, h]

/-- A request with a refused variable is refused and the resolver does not run. -/
theorem Do_of_refused_variable (req : Request) (ctx : Option Context) (st : Store)
    (h : getVariableValues req.variableDefinitions req.VariableValues = none) :
    Do req ctx st = (.refused, [], st) := by
  unfold Do
  rw [h]
  split <;> rfl

/-- A document that does not write `username` or `email` is not valid. -/
theorem validate_of_missing (req : Request) (name : String)
    (hname : name = "username" ∨ name = "email")
    (hmiss : ∀ v, (name, v) ∉ req.arguments) : validate userField req = false := by
  have hl := lookup_eq_none_of_absent name req.arguments hmiss
  rw [← Bool.not_eq_true]
  intro hv
  simp only [validate, Bool.and_eq_true, List.all_eq_true] at hv
  have h4 := hv.1.1.2 (name, .NonNull .String)
    (by rcases hname with h | h <;> subst h <;> simp [userField])
  simp [hl] at h4

/-- A document that writes an argument other than `username` and `email` is not
valid. -/
theorem validate_of_unknown (req : Request) (a : String × ArgValue)
    (ha : a ∈ req.arguments) (h1 : a.1 ≠ "username") (h2 : a.1 ≠ "email") :
    validate userField req = false := by
  rw [← Bool.not_eq_true]
  intro hv
  simp only [validate, Bool.and_eq_true, List.all_eq_true] at hv
  have h2' := hv.1.1.1.1.2 a ha
  have hl : userField.Args.lookup a.1 = none := by
    have e1 : (a.1 == "username") = false := by simpa using h1
    have e2 : (a.1 == "email") = false := by simpa using h2
    simp [userField, List.lookup, e1, e2]
  simp [argumentOK, hl] at h2'

/-- A document that writes `username` or `email` with a literal that is not a string
is not valid. -/
theorem validate_of_bad_literal (req : Request) (name : String) (l : Literal)
    (hname : name = "username" ∨ name = "email")
    (ha : (name, ArgValue.literal l) ∈ req.arguments) (hns : ∀ s, l ≠ .StringValue s) :
    validate userField req = false := by
  have hlook : userField.Args.lookup name = some (.NonNull .String) := by
    rcases hname with h | h <;> subst h <;> simp [userField, List.lookup]
  have hacc : (InputType.NonNull .String).accepts l = false := by
    cases l with
    | StringValue s => exact absurd rfl (hns s)
    | IntValue n => rfl
    | FloatValue t => rfl
    | BooleanValue b => rfl
    | EnumValue n => rfl
    | NullValue => rfl
    | ListValue => rfl
    | ObjectValue => rfl
  rw [← Bool.not_eq_true]
  intro hv
  simp only [validate, Bool.and_eq_true, List.all_eq_true] at hv
  have h2 := hv.1.1.1.1.2 _ ha
  simp [argumentOK, hlook, hacc] at h2

/-- A document that writes `username` or `email` with a variable that is not defined
with type `String!` is not valid. -/
theorem validate_of_bad_variable (req : Request) (name v : String)
    (hname : name = "username" ∨ name = "email")
    (ha : (name, ArgValue.variable v) ∈ req.arguments)
    (hdef : req.variableDefinitions.lookup v ≠ some (.NonNull .String)) :
    validate userField req = false := by
  have hlook : userField.Args.lookup name = some (.NonNull .String) := by
    rcases hname with h | h <;> subst h <;> simp [userField, List.lookup]
  rw [← Bool.not_eq_true]
  intro hv
  simp only [validate, Bool.and_eq_true, List.all_eq_true] at hv
  have h2 := hv.1.1.1.1.2 _ ha
  simp only [argumentOK, hlook] at h2
  cases hd : req.variableDefinitions.lookup v with
  | none => simp [hd] at h2
  | some vt =>
    rw [hd] at hdef h2
    cases vt with
    | Nullable s => simp [InputType.allowedIn] at h2
    | NonNull s =>
      cases s with
      | Int => simp [InputType.allowedIn] at h2
      | String => exact hdef rfl

/-- A variable defined with type `String!` that the request leaves without a value,
or gives the value null, is refused. -/
theorem getVariableValues_of_null (defs : List (String × InputType))
    (given : List (String × VarValue)) (v : String)
    (hdef : defs.lookup v = some (.NonNull .String))
    (hval : given.lookup v = none ∨ given.lookup v = some .null) :
    getVariableValues defs given = none := by
  induction defs with
  | nil => simp [List.lookup] at hdef
  | cons d ds ih =>
    obtain ⟨k, t⟩ := d
    rw [List.lookup_cons] at hdef
    by_cases hk : v = k
    · subst hk
      simp at hdef
      subst hdef
      have hvv : variableValue (.NonNull .String) (given.lookup v) = none := by
        rcases hval with h | h <;> simp [h, variableValue]
      simp [getVariableValues, hvv]
    · have hb : (v == k) = false := by simpa using hk
      rw [hb] at hdef
      have := ih hdef
      unfold getVariableValues
      rw [this]
      cases variableValue t (given.lookup k) with
      | none => rfl
      | some x => cases x <;> rfl

/-- A row returned by the resolver is a row of the store that matches the strings
the resolver took from its argument map, and the run sent one SELECT. -/
theorem Resolve_row (p : ResolveParams) (st : Store) (o : Outcome) (r : User)
    (hrun : Resolve p st = .returns o) (hrow : o.result = some r) :
    r ∈ st.users ∧
    (r.Username = (assertString (mapIndex p.Args "username")).1 ∨
      r.Email = (assertString (mapIndex p.Args "email")).1) ∧
    ∃ db, o.effects = [.Select db whereCond [(assertString (mapIndex p.Args "username")).1,
      (assertString (mapIndex p.Args "email")).1]] := by
  cases hc : p.Context with
  | none =>
    rw [Resolve_of_nil_context p st hc] at hrun
    cases hrun
  | some ctx =>
    rcases db_value_cases ctx with ⟨a, ha⟩ | ⟨a, ha⟩ | hn
    · rw [Resolve_of_session p ctx st a hc ha] at hrun
      cases hst : st.fault with
      | some c =>
        rw [First_of_fault st _ _ c hst] at hrun
        cases hrun
        simp at hrow
      | none =>
        by_cases hex : ∃ r0 ∈ st.users, whereCond.holds
            [(assertString (mapIndex p.Args "username")).1,
              (assertString (mapIndex p.Args "email")).1] r0 = true
        · obtain ⟨r0, hr0, hc0⟩ := hex
          obtain ⟨r1, hF, hmem, hcond, _⟩ := First_of_row st whereCond _ hst r0 hr0 hc0
          rw [hF] at hrun
          cases hrun
          simp at hrow
          subst hrow
          exact ⟨hmem, (whereCond_holds _ _ r1).mp hcond, _, rfl⟩
        · have hno : ∀ x ∈ st.users, whereCond.holds
              [(assertString (mapIndex p.Args "username")).1,
                (assertString (mapIndex p.Args "email")).1] x = false := by
            intro x hx
            by_contra hcx
            exact hex ⟨x, hx, by simpa using hcx⟩
          rw [First_of_no_row st _ _ hst hno] at hrun
          cases hrun
          simp at hrow
    · rw [Resolve_of_zero p ctx st a hc ha] at hrun
      cases hrun
    · rw [Resolve_of_no_handle p ctx st hc hn] at hrun
      cases hrun
      simp at hrow

/-- Two calls in a row, when the run of the resolver returns: both calls return the
same pair, the store stays, and each call writes the same lines. -/
theorem invoke_twice (w : Process) (p : ResolveParams) (o : Outcome)
    (h : Resolve p w.store = .returns o) :
    invoke w p = (.returns (o.result, o.err), ⟨w.store, w.stdout ++ printed o.effects⟩) ∧
    invoke (invoke w p).2 p =
      (.returns (o.result, o.err),
        ⟨w.store, w.stdout ++ printed o.effects ++ printed o.effects⟩) := by
  have hs := Resolve_store p w.store o h
  have h1 : invoke w p =
      (.returns (o.result, o.err), ⟨w.store, w.stdout ++ printed o.effects⟩) := by
    simp [invoke, h, hs]
  refine ⟨h1, ?_⟩
  rw [h1]
  simp [invoke, h, hs]

/-- Two calls in a row, when the run of the resolver panics: both calls panic and
the process stays as it was. -/
theorem invoke_twice_panic (w : Process) (p : ResolveParams) (msg : String)
    (h : Resolve p w.store = .panics msg) :
    invoke w p = (.panics msg, w) ∧ invoke (invoke w p).2 p = (.panics msg, w) := by
  have h1 : invoke w p = (.panics msg, w) := by simp [invoke, h]
  refine ⟨h1, ?_⟩
  rw [h1]
  exact h1

/-! ## The claims -/

/-- C1, refuted as stated, on the scenario of the specification: the store is
empty and healthy, the context carries the session at address 1, the query is
`user(username: "bob", email: "")`. No row matches, yet the resolver returns
the error `gorm.ErrRecordNotFound` and the error list of the response is not
empty. -/
theorem not_found_without_error_counterexample :
    (∀ r ∈ (Store.mk [] none).users, ¬ (r.Username = "bob" ∨ r.Email = "")) ∧
    (mainContext (.session 1)).Value (.string "db") = .gormDB (.session 1) ∧
    Resolve ⟨some (mainContext (.session 1)),
          [("username", .string "bob"), ("email", .string "")]⟩ (Store.mk [] none) =
      .returns ⟨none, some .ErrRecordNotFound, [.Select (.session 1) whereCond ["bob", ""]],
        Store.mk [] none⟩ ∧
    (Do (userQuery "bob" "" ["id", "username", "email", "password"])
        (some (mainContext (.session 1))) (Store.mk [] none)).1 =
      .executed none [.resolver .ErrRecordNotFound] ∧
    (Do (userQuery "bob" "" ["id", "username", "email", "password"])
        (some (mainContext (.session 1))) (Store.mk [] none)).1.hasErrors = true := by
  refine ⟨?_, ?_, ?_, ?_, ?_⟩
  · intro r hr
    simp at hr
  · decide
  · decide
  · decide
  · decide

/-- C1, amended: when the store is healthy, no row has the given username or the
given email, and the context carries a session, the resolver returns a nil
result together with the error `gorm.ErrRecordNotFound` after one SELECT;
in the response, whatever fields are selected, `data.user` is null and the
error list holds that error. -/
theorem not_found_returns_ErrRecordNotFound (p : ResolveParams) (ctx : Context) (st : Store)
    (h : Nat) (username email : String)
    (hc : p.Context = some ctx)
    (hctx : ctx.Value (.string "db") = .gormDB (.session h))
    (hu : mapIndex p.Args "username" = .string username)
    (he : mapIndex p.Args "email" = .string email)
    (hst : st.fault = none)
    (hnone : ∀ r ∈ st.users, ¬ (r.Username = username ∨ r.Email = email)) :
    Resolve p st =
      .returns ⟨none, some .ErrRecordNotFound,
        [.Select (.session h) whereCond [username, email]], st⟩ ∧
    ∀ sel, selectionOK userType sel = true →
      (Do (userQuery username email sel) p.Context st).1 =
        .executed none [.resolver .ErrRecordNotFound] := by
  have hF : First st whereCond [username, email] = ⟨User.zero, some .ErrRecordNotFound, st⟩ := by
    apply First_of_no_row st whereCond [username, email] hst
    intro r hr
    have := hnone r hr
    rw [← whereCond_holds] at this
    simpa using this
  have hR : ∀ q : ResolveParams, q.Context = some ctx →
      mapIndex q.Args "username" = .string username → mapIndex q.Args "email" = .string email →
      Resolve q st = .returns ⟨none, some .ErrRecordNotFound,
        [.Select (.session h) whereCond [username, email]], st⟩ := by
    intro q hq hqu hqe
    rw [Resolve_of_session q ctx st h hq hctx, hqu, hqe]
    simp [assertString, hF]
  refine ⟨hR p hc hu he, ?_⟩
  intro sel hsel
  rw [Do_userQuery username email sel p.Context st hsel, hR ⟨p.Context, [("username", .string username), ("email", .string email)]⟩ hc rfl rfl]

/-- Witness of `not_found_returns_ErrRecordNotFound`: the empty store and the query
for `bob`, selecting every field. -/
theorem not_found_returns_ErrRecordNotFound_witness :
    Resolve ⟨some (mainContext (.session 1)),
          [("username", .string "bob"), ("email", .string "")]⟩ (Store.mk [] none) =
      .returns ⟨none, some .ErrRecordNotFound, [.Select (.session 1) whereCond ["bob", ""]],
        Store.mk [] none⟩ ∧
    (Do (userQuery "bob" "" ["id", "username", "email", "password"])
        (some (mainContext (.session 1))) (Store.mk [] none)).1 =
      .executed none [.resolver .ErrRecordNotFound] :=
  have w := not_found_returns_ErrRecordNotFound
    ⟨some (mainContext (.session 1)), [("username", .string "bob"), ("email", .string "")]⟩
    (mainContext (.session 1)) (Store.mk [] none) 1 "bob" "" rfl (by decide) (by decide)
    (by decide) rfl (by intro r hr; simp at hr)
  ⟨w.1, w.2 ["id", "username", "email", "password"] (by decide)⟩

/-- C2, refuted as stated: the store holds the single row of `alice` with id
2147483648, the query is `user(username: "alice", email: "")` selecting every
field. Exactly one row matches and the resolver returns it with a nil error,
yet the projected `id` is null and so differs from the id of the row:
`graphql.Int` (login.go 42) serialises only integers of 32 bits. -/
theorem projected_id_counterexample :
    (Store.mk [⟨2147483648, "alice", "a@x.com", "p1"⟩] none).users.filter
        (fun x => decide (x.Username = "alice" ∨ x.Email = "")) =
      [⟨2147483648, "alice", "a@x.com", "p1"⟩] ∧
    Resolve ⟨some (mainContext (.session 1)),
          [("username", .string "alice"), ("email", .string "")]⟩
        (Store.mk [⟨2147483648, "alice", "a@x.com", "p1"⟩] none) =
      .returns ⟨some ⟨2147483648, "alice", "a@x.com", "p1"⟩, none,
        [.Select (.session 1) whereCond ["alice", ""]],
        Store.mk [⟨2147483648, "alice", "a@x.com", "p1"⟩] none⟩ ∧
    (Do (userQuery "alice" "" ["id", "username", "email", "password"])
        (some (mainContext (.session 1)))
        (Store.mk [⟨2147483648, "alice", "a@x.com", "p1"⟩] none)).1 =
      .executed (some [("id", .null), ("username", .string "alice"),
        ("email", .string "a@x.com"), ("password", .string "p1")]) [] ∧
    JSON.null ≠ JSON.number (User.mk 2147483648 "alice" "a@x.com" "p1").ID := by
  refine ⟨by decide, by decide, by decide, by decide⟩

/-- C2, amended: when the store is healthy, exactly one row `r` has the given
username or the given email, and the context carries a session, the resolver
returns `r` with a nil error after one SELECT. In the response the error
list is empty and `data.user` holds one entry for every selected field:
username, email and password are those of `r`, the password unchanged, and
id is the id of `r` when that lies within 32 bits. -/
theorem unique_match_returns_row (p : ResolveParams) (ctx : Context) (st : Store) (h : Nat)
    (username email : String) (r : User)
    (hc : p.Context = some ctx)
    (hctx : ctx.Value (.string "db") = .gormDB (.session h))
    (hu : mapIndex p.Args "username" = .string username)
    (he : mapIndex p.Args "email" = .string email)
    (hst : st.fault = none)
    (hone : st.users.filter (fun x => decide (x.Username = username ∨ x.Email = email)) = [r])
    (hid : -2147483648 ≤ r.ID ∧ r.ID ≤ 2147483647) :
    Resolve p st =
      .returns ⟨some r, none, [.Select (.session h) whereCond [username, email]], st⟩ ∧
    (Do (userQuery username email ["id", "username", "email", "password"]) p.Context st).1 =
      .executed (some [("id", .number r.ID), ("username", .string r.Username),
        ("email", .string r.Email), ("password", .string r.Password)]) [] ∧
    ∀ sel, selectionOK userType sel = true →
      ∃ fields, (Do (userQuery username email sel) p.Context st).1 = .executed (some fields) [] ∧
        fields.map Prod.fst = sel.eraseDups ∧
        (∀ v, ("id", v) ∈ fields → v = .number r.ID) ∧
        (∀ v, ("username", v) ∈ fields → v = .string r.Username) ∧
        (∀ v, ("email", v) ∈ fields → v = .string r.Email) ∧
        (∀ v, ("password", v) ∈ fields → v = .string r.Password) := by
  have hfilter : st.users.filter (fun x => whereCond.holds [username, email] x) = [r] := by
    rw [← hone]
    apply List.filter_congr
    intro x _
    by_cases hx : x.Username = username ∨ x.Email = email
    · simp [hx, (whereCond_holds username email x).mpr hx]
    · have : whereCond.holds [username, email] x = false := by
        rw [← whereCond_holds] at hx
        simpa using hx
      simp [hx, this]
  have hF : First st whereCond [username, email] = ⟨r, none, st⟩ := by
    simp [First, exec_select_first st _ _ hst, hfilter, orderByID]
  have hR : ∀ q : ResolveParams, q.Context = some ctx →
      mapIndex q.Args "username" = .string username → mapIndex q.Args "email" = .string email →
      Resolve q st = .returns ⟨some r, none,
        [.Select (.session h) whereCond [username, email]], st⟩ := by
    intro q hq hqu hqe
    rw [Resolve_of_session q ctx st h hq hctx, hqu, hqe]
    simp [assertString, hF]
  have hD : ∀ sel, selectionOK userType sel = true →
      (Do (userQuery username email sel) p.Context st).1 =
        .executed (some (projectUser userType sel r)) [] := by
    intro sel hsel
    rw [Do_userQuery username email sel p.Context st hsel, hR ⟨p.Context, [("username", .string username), ("email", .string email)]⟩ hc rfl rfl]
    rfl
  have hser : Scalar.serialize .Int (.int r.ID) = .number r.ID := by
    simp [Scalar.serialize, hid]
  have hfield : ∀ sel (f : String) (v : JSON), (f, v) ∈ projectUser userType sel r →
      f ≠ "__typename" → ∀ s, userType.Fields.lookup f = some s → v = s.serialize (r.field f) := by
    intro sel f v hm hnt s hs
    unfold projectUser at hm
    rw [List.mem_map] at hm
    obtain ⟨g, _, hg⟩ := hm
    by_cases hgt : g = "__typename"
    · rw [if_pos hgt] at hg
      cases hg
      exact absurd hgt hnt
    · rw [if_neg hgt] at hg
      cases hl : userType.Fields.lookup g with
      | none =>
        rw [hl] at hg
        cases hg
        rw [hl] at hs
        cases hs
      | some s' =>
        rw [hl] at hg
        cases hg
        rw [hl] at hs
        cases hs
        rfl
  refine ⟨hR p hc hu he, ?_, ?_⟩
  · rw [hD _ (by decide)]
    have : projectUser userType ["id", "username", "email", "password"] r =
        [("id", Scalar.serialize .Int (.int r.ID)), ("username", .string r.Username),
          ("email", .string r.Email), ("password", .string r.Password)] := by
      rfl
    rw [this, hser]
  · intro sel hsel
    refine ⟨projectUser userType sel r, hD sel hsel, ?_, ?_, ?_, ?_, ?_⟩
    · unfold projectUser
      rw [List.map_map]
      conv_rhs => rw [← List.map_id sel.eraseDups]
      apply List.map_congr_left
      intro f _
      simp only [Function.comp, id]
      split
      · rfl
      · split <;> rfl
    · intro v hv
      rw [hfield sel "id" v hv (by decide) .Int (by decide)]
      exact hser
    · intro v hv
      rw [hfield sel "username" v hv (by decide) .String (by decide)]
      rfl
    · intro v hv
      rw [hfield sel "email" v hv (by decide) .String (by decide)]
      rfl
    · intro v hv
      rw [hfield sel "password" v hv (by decide) .String (by decide)]
      rfl

/-- Witness of `unique_match_returns_row`: the scenario of the specification, the
store holding the single row of `alice` and the query
`user(username: "alice", email: "")` selecting every field. -/
theorem unique_match_returns_row_witness :
    Resolve ⟨some (mainContext (.session 1)),
          [("username", .string "alice"), ("email", .string "")]⟩
        (Store.mk [⟨1, "alice", "a@x.com", "p1"⟩] none) =
      .returns ⟨some ⟨1, "alice", "a@x.com", "p1"⟩, none,
        [.Select (.session 1) whereCond ["alice", ""]],
        Store.mk [⟨1, "alice", "a@x.com", "p1"⟩] none⟩ ∧
    (Do (userQuery "alice" "" ["id", "username", "email", "password"])
        (some (mainContext (.session 1))) (Store.mk [⟨1, "alice", "a@x.com", "p1"⟩] none)).1 =
      .executed (some [("id", .number 1), ("username", .string "alice"),
        ("email", .string "a@x.com"), ("password", .string "p1")]) [] :=
  have w := unique_match_returns_row
    ⟨some (mainContext (.session 1)), [("username", .string "alice"), ("email", .string "")]⟩
    (mainContext (.session 1)) (Store.mk [⟨1, "alice", "a@x.com", "p1"⟩] none) 1 "alice" ""
    ⟨1, "alice", "a@x.com", "p1"⟩ rfl (by decide) (by decide) (by decide) rfl (by decide)
    (by decide)
  ⟨w.1, w.2.1⟩

/-- C3: when the lookup fails in the store with cause `c` and the context carries a
session, the resolver returns a nil result together with exactly the error
of that cause; in the response `data.user` is null and the error list holds
that error, whatever username, email and fields are asked for. -/
theorem store_failure_is_returned (p : ResolveParams) (ctx : Context) (st : Store) (h : Nat)
    (c : String)
    (hc : p.Context = some ctx)
    (hctx : ctx.Value (.string "db") = .gormDB (.session h))
    (hfault : st.fault = some c) :
    (∃ effects, Resolve p st = .returns ⟨none, some (.storeFailure c), effects, st⟩) ∧
    ∀ (username email : String) (sel : List String), selectionOK userType sel = true →
      (Do (userQuery username email sel) p.Context st).1 =
        .executed none [.resolver (.storeFailure c)] ∧
      (Do (userQuery username email sel) p.Context st).1.hasErrors = true := by
  have hR : ∀ q : ResolveParams, q.Context = some ctx →
      ∃ effects, Resolve q st = .returns ⟨none, some (.storeFailure c), effects, st⟩ := by
    intro q hq
    rw [Resolve_of_session q ctx st h hq hctx, First_of_fault st _ _ c hfault]
    exact ⟨_, rfl⟩
  refine ⟨hR p hc, ?_⟩
  intro username email sel hsel
  obtain ⟨eff, hq⟩ :=
    hR ⟨p.Context, [("username", .string username), ("email", .string email)]⟩ hc
  rw [Do_userQuery username email sel p.Context st hsel, hq]
  exact ⟨rfl, rfl⟩

/-- Witness of `store_failure_is_returned`: the store of `alice` is unreachable. -/
theorem store_failure_is_returned_witness :
    (∃ effects,
      Resolve ⟨some (mainContext (.session 1)),
            [("username", .string "alice"), ("email", .string "")]⟩
          (Store.mk [⟨1, "alice", "a@x.com", "p1"⟩] (some "connection refused")) =
        .returns ⟨none, some (.storeFailure "connection refused"), effects,
          Store.mk [⟨1, "alice", "a@x.com", "p1"⟩] (some "connection refused")⟩) ∧
    (Do (userQuery "alice" "" ["password"]) (some (mainContext (.session 1)))
        (Store.mk [⟨1, "alice", "a@x.com", "p1"⟩] (some "connection refused"))).1 =
      .executed none [.resolver (.storeFailure "connection refused")] :=
  have w := store_failure_is_returned
    ⟨some (mainContext (.session 1)), [("username", .string "alice"), ("email", .string "")]⟩
    (mainContext (.session 1))
    (Store.mk [⟨1, "alice", "a@x.com", "p1"⟩] (some "connection refused")) 1
    "connection refused" rfl (by decide) rfl
  ⟨w.1, (w.2 "alice" "" ["password"] (by decide)).1⟩

/-- C4: when the context yields no handle for key `"db"` (the key is absent, its
value is not a `*gorm.DB`, or it is a nil `*gorm.DB`), the resolver returns
a nil result with a nil error, whatever the arguments; all it does is print
one diagnostic line, it sends no SELECT and leaves the store as it was. -/
theorem no_handle_returns_nil (p : ResolveParams) (ctx : Context) (st : Store)
    (hc : p.Context = some ctx)
    (hctx : ∀ d, ctx.Value (.string "db") = .gormDB d → d = .nil) :
    Resolve p st =
      .returns ⟨none, none,
        [.Println (if ctx.Value (.string "db") = .gormDB .nil then "db is nil"
          else "db is not found in context")], st⟩ ∧
    ∀ o, Resolve p st = .returns o →
      ∀ db cond args, Effect.Select db cond args ∉ o.effects := by
  have key := Resolve_of_no_handle p ctx st hc hctx
  refine ⟨key, ?_⟩
  intro o ho db cond args
  rw [key] at ho
  cases ho
  simp

/-- Witness of `no_handle_returns_nil`: a context without the key, with a string
under the key, and with a nil handle under the key. -/
theorem no_handle_returns_nil_witness :
    Resolve ⟨some Context.Background, [("username", .string "alice"), ("email", .string "")]⟩
        (Store.mk [⟨1, "alice", "a@x.com", "p1"⟩] none) =
      .returns ⟨none, none, [.Println "db is not found in context"],
        Store.mk [⟨1, "alice", "a@x.com", "p1"⟩] none⟩ ∧
    Resolve ⟨some (Context.WithValue Context.Background (.string "db") (.string "postgres")),
          [("username", .string "alice"), ("email", .string "")]⟩
        (Store.mk [⟨1, "alice", "a@x.com", "p1"⟩] none) =
      .returns ⟨none, none, [.Println "db is not found in context"],
        Store.mk [⟨1, "alice", "a@x.com", "p1"⟩] none⟩ ∧
    Resolve ⟨some (mainContext .nil), [("username", .string "alice"), ("email", .string "")]⟩
        (Store.mk [⟨1, "alice", "a@x.com", "p1"⟩] none) =
      .returns ⟨none, none, [.Println "db is nil"],
        Store.mk [⟨1, "alice", "a@x.com", "p1"⟩] none⟩ :=
  ⟨(no_handle_returns_nil
      ⟨some Context.Background, [("username", .string "alice"), ("email", .string "")]⟩
      Context.Background (Store.mk [⟨1, "alice", "a@x.com", "p1"⟩] none) rfl
      (by intro d hd; simp [Context.Value] at hd)).1,
   (no_handle_returns_nil
      ⟨some (Context.WithValue Context.Background (.string "db") (.string "postgres")),
        [("username", .string "alice"), ("email", .string "")]⟩
      (Context.WithValue Context.Background (.string "db") (.string "postgres"))
      (Store.mk [⟨1, "alice", "a@x.com", "p1"⟩] none) rfl
      (by intro d hd; simp [Context.Value] at hd)).1,
   (no_handle_returns_nil
      ⟨some (mainContext .nil), [("username", .string "alice"), ("email", .string "")]⟩
      (mainContext .nil) (Store.mk [⟨1, "alice", "a@x.com", "p1"⟩] none) rfl
      (by intro d hd; simp [Context.Value, mainContext] at hd; exact hd.symm)).1⟩

/-- C5: for every store and every pair of strings handed over as `username` and
`email`, the empty string included, a row returned by the resolver is a row
of the store whose username is the given username or whose email is the
given email (the first argument is compared with column `username`, the
second with column `email`); the result holds one row at most, and the
single SELECT carries the two strings in that order. -/
theorem returned_row_matches (p : ResolveParams) (st : Store) (username email : String)
    (o : Outcome) (r : User)
    (hu : mapIndex p.Args "username" = .string username)
    (he : mapIndex p.Args "email" = .string email)
    (hrun : Resolve p st = .returns o)
    (hrow : o.result = some r) :
    r ∈ st.users ∧ (r.Username = username ∨ r.Email = email) ∧
    ∃ db, o.effects = [.Select db whereCond [username, email]] := by
  have key := Resolve_row p st o r hrun hrow
  rw [hu, he] at key
  exact key

/-- Witness of `returned_row_matches`: the store holds `alice` and `bob`, the query
gives an empty username and the email of `bob`. -/
theorem returned_row_matches_witness :
    (⟨2, "bob", "b@x.com", "p2"⟩ : User) ∈
      (Store.mk [⟨1, "alice", "a@x.com", "p1"⟩, ⟨2, "bob", "b@x.com", "p2"⟩] none).users ∧
    ((⟨2, "bob", "b@x.com", "p2"⟩ : User).Username = "" ∨
      (⟨2, "bob", "b@x.com", "p2"⟩ : User).Email = "b@x.com") ∧
    ∃ db, [Effect.Select (.session 1) whereCond ["", "b@x.com"]] =
      [.Select db whereCond ["", "b@x.com"]] :=
  returned_row_matches
    ⟨some (mainContext (.session 1)), [("username", .string ""), ("email", .string "b@x.com")]⟩
    (Store.mk [⟨1, "alice", "a@x.com", "p1"⟩, ⟨2, "bob", "b@x.com", "p2"⟩] none) "" "b@x.com"
    ⟨some ⟨2, "bob", "b@x.com", "p2"⟩, none, [.Select (.session 1) whereCond ["", "b@x.com"]],
      Store.mk [⟨1, "alice", "a@x.com", "p1"⟩, ⟨2, "bob", "b@x.com", "p2"⟩] none⟩
    ⟨2, "bob", "b@x.com", "p2"⟩ (by decide) (by decide) (by decide) rfl

/-- C6, refuted as stated: the store yields the row of id 2 before the row of id 1
and both have username `alice`. The lookup worded by the specification
(no ordering, first matching row of the store) gives the row of id 2; the
resolver returns the row of id 1. -/
theorem store_order_counterexample :
    findUserByUsernameOrEmail
        (Store.mk [⟨2, "alice", "a2@x.com", "p2"⟩, ⟨1, "alice", "a1@x.com", "p1"⟩] none)
        "alice" "" = some ⟨2, "alice", "a2@x.com", "p2"⟩ ∧
    Resolve ⟨some (mainContext (.session 1)),
          [("username", .string "alice"), ("email", .string "")]⟩
        (Store.mk [⟨2, "alice", "a2@x.com", "p2"⟩, ⟨1, "alice", "a1@x.com", "p1"⟩] none) =
      .returns ⟨some ⟨1, "alice", "a1@x.com", "p1"⟩, none,
        [.Select (.session 1) whereCond ["alice", ""]],
        Store.mk [⟨2, "alice", "a2@x.com", "p2"⟩, ⟨1, "alice", "a1@x.com", "p1"⟩] none⟩ ∧
    ¬ ∀ o, Resolve
          ⟨some (mainContext (.session 1)),
            [("username", .string "alice"), ("email", .string "")]⟩
          (Store.mk [⟨2, "alice", "a2@x.com", "p2"⟩, ⟨1, "alice", "a1@x.com", "p1"⟩] none) =
        .returns o →
      o.result = findUserByUsernameOrEmail
        (Store.mk [⟨2, "alice", "a2@x.com", "p2"⟩, ⟨1, "alice", "a1@x.com", "p1"⟩] none)
        "alice" "" := by
  refine ⟨by decide, by decide, ?_⟩
  intro hall
  have := hall _ (by decide :
    Resolve ⟨some (mainContext (.session 1)),
          [("username", .string "alice"), ("email", .string "")]⟩
        (Store.mk [⟨2, "alice", "a2@x.com", "p2"⟩, ⟨1, "alice", "a1@x.com", "p1"⟩] none) =
      .returns ⟨some ⟨1, "alice", "a1@x.com", "p1"⟩, none,
        [.Select (.session 1) whereCond ["alice", ""]],
        Store.mk [⟨2, "alice", "a2@x.com", "p2"⟩, ⟨1, "alice", "a1@x.com", "p1"⟩] none⟩)
  revert this
  decide

/-- C6, amended: the lookup is ordered by primary key. When the store is healthy,
the context carries a session and at least one row has the given username or
the given email, the resolver returns, with a nil error, a row of the store
that matches and whose id is least among the matching rows (the statement
is `WHERE username = ? OR email = ? ORDER BY users.id LIMIT 1`). -/
theorem lookup_returns_least_id (p : ResolveParams) (ctx : Context) (st : Store) (h : Nat)
    (username email : String) (r0 : User)
    (hc : p.Context = some ctx)
    (hctx : ctx.Value (.string "db") = .gormDB (.session h))
    (hu : mapIndex p.Args "username" = .string username)
    (he : mapIndex p.Args "email" = .string email)
    (hst : st.fault = none)
    (hr0 : r0 ∈ st.users) (hm0 : r0.Username = username ∨ r0.Email = email) :
    ∃ r, Resolve p st =
        .returns ⟨some r, none, [.Select (.session h) whereCond [username, email]], st⟩ ∧
      r ∈ st.users ∧ (r.Username = username ∨ r.Email = email) ∧
      ∀ r' ∈ st.users, (r'.Username = username ∨ r'.Email = email) → r.ID ≤ r'.ID := by
  obtain ⟨r, hF, hmem, hcond, hmin⟩ := First_of_row st whereCond [username, email] hst r0 hr0
    ((whereCond_holds username email r0).mpr hm0)
  refine ⟨r, ?_, hmem, (whereCond_holds username email r).mp hcond, ?_⟩
  · rw [Resolve_of_session p ctx st h hc hctx, hu, he]
    simp [assertString, hF]
  · intro r' hr' hm'
    exact hmin r' hr' ((whereCond_holds username email r').mpr hm')

/-- Witness of `lookup_returns_least_id`: two rows of username `alice`, the row of
id 2 stored first. -/
theorem lookup_returns_least_id_witness :
    ∃ r, Resolve ⟨some (mainContext (.session 1)),
            [("username", .string "alice"), ("email", .string "")]⟩
          (Store.mk [⟨2, "alice", "a2@x.com", "p2"⟩, ⟨1, "alice", "a1@x.com", "p1"⟩] none) =
        .returns ⟨some r, none, [.Select (.session 1) whereCond ["alice", ""]],
          Store.mk [⟨2, "alice", "a2@x.com", "p2"⟩, ⟨1, "alice", "a1@x.com", "p1"⟩] none⟩ ∧
      r ∈ (Store.mk [⟨2, "alice", "a2@x.com", "p2"⟩, ⟨1, "alice", "a1@x.com", "p1"⟩] none).users ∧
      (r.Username = "alice" ∨ r.Email = "") ∧
      ∀ r' ∈ (Store.mk [⟨2, "alice", "a2@x.com", "p2"⟩, ⟨1, "alice", "a1@x.com", "p1"⟩]
          none).users,
        (r'.Username = "alice" ∨ r'.Email = "") → r.ID ≤ r'.ID :=
  lookup_returns_least_id
    ⟨some (mainContext (.session 1)), [("username", .string "alice"), ("email", .string "")]⟩
    (mainContext (.session 1))
    (Store.mk [⟨2, "alice", "a2@x.com", "p2"⟩, ⟨1, "alice", "a1@x.com", "p1"⟩] none) 1
    "alice" "" ⟨2, "alice", "a2@x.com", "p2"⟩ rfl (by decide) (by decide) (by decide) rfl
    (by decide) (by decide)

/-- C7: two calls of the resolver in a row with the same context and arguments, in
a process whose store nobody else changes, return the same pair (same row or
same nil, same error) or panic alike; the store is after each call what it
was before the first; the only trace a call leaves is the diagnostic lines
it prints, the same lines at each call. The result is not a constant: with a
session and a healthy store, both calls return a row with a nil error
exactly when a row of the store has the given username or email. -/
theorem invoke_idempotent (w : Process) (p : ResolveParams) :
    (invoke (invoke w p).2 p).1 = (invoke w p).1 ∧
    (invoke w p).2.store = w.store ∧
    (invoke (invoke w p).2 p).2.store = w.store ∧
    (∃ lines, (invoke w p).2.stdout = w.stdout ++ lines ∧
      (invoke (invoke w p).2 p).2.stdout = w.stdout ++ lines ++ lines) ∧
    ∀ ctx h username email, p.Context = some ctx →
      ctx.Value (.string "db") = .gormDB (.session h) →
      mapIndex p.Args "username" = .string username →
      mapIndex p.Args "email" = .string email →
      w.store.fault = none →
      ((∃ r, (invoke w p).1 = .returns (some r, none) ∧
          (invoke (invoke w p).2 p).1 = .returns (some r, none)) ↔
        ∃ r ∈ w.store.users, r.Username = username ∨ r.Email = email) := by
  cases hrun : Resolve p w.store with
  | panics msg =>
    obtain ⟨h1, h2⟩ := invoke_twice_panic w p msg hrun
    refine ⟨by rw [h2, h1], by rw [h1], by rw [h2], ⟨[], by rw [h1]; simp, by rw [h2]; simp⟩, ?_⟩
    intro ctx h username email hc hctx _ _ _
    rw [Resolve_of_session p ctx w.store h hc hctx] at hrun
    cases hrun
  | returns o =>
    obtain ⟨h1, h2⟩ := invoke_twice w p o hrun
    refine ⟨by rw [h2, h1], by rw [h1], by rw [h2],
      ⟨printed o.effects, by rw [h1], by rw [h2]⟩, ?_⟩
    intro ctx h username email hc hctx hu he hst
    rw [h2, h1]
    constructor
    · rintro ⟨r, hr, _⟩
      have hres : o.result = some r := by
        have := congrArg (fun x => match x with
          | Run.returns a => a.1
          | Run.panics _ => none) hr
        simpa using this
      have key := Resolve_row p w.store o r hrun hres
      rw [hu, he] at key
      exact ⟨r, key.1, key.2.1⟩
    · rintro ⟨r0, hr0, hm0⟩
      obtain ⟨r, hF, _⟩ := First_of_row w.store whereCond [username, email] hst r0 hr0
        ((whereCond_holds username email r0).mpr hm0)
      rw [Resolve_of_session p ctx w.store h hc hctx, hu, he] at hrun
      simp only [assertString, hF] at hrun
      cases hrun
      exact ⟨r, rfl, rfl⟩

/-- Witness of `invoke_idempotent`: two calls for `alice` on the store of `alice`
with lines already printed both return her row. -/
theorem invoke_idempotent_witness :
    ∃ r, (invoke ⟨Store.mk [⟨1, "alice", "a@x.com", "p1"⟩] none, ["db is nil"]⟩
          ⟨some (mainContext (.session 1)),
            [("username", .string "alice"), ("email", .string "")]⟩).1 =
        .returns (some r, none) ∧
      (invoke (invoke ⟨Store.mk [⟨1, "alice", "a@x.com", "p1"⟩] none, ["db is nil"]⟩
          ⟨some (mainContext (.session 1)),
            [("username", .string "alice"), ("email", .string "")]⟩).2
          ⟨some (mainContext (.session 1)),
            [("username", .string "alice"), ("email", .string "")]⟩).1 =
        .returns (some r, none) :=
  ((invoke_idempotent ⟨Store.mk [⟨1, "alice", "a@x.com", "p1"⟩] none, ["db is nil"]⟩
      ⟨some (mainContext (.session 1)),
        [("username", .string "alice"), ("email", .string "")]⟩).2.2.2.2
    (mainContext (.session 1)) 1 "alice" "" rfl (by decide) (by decide) (by decide) rfl).mpr
    ⟨⟨1, "alice", "a@x.com", "p1"⟩, by decide, by decide⟩

/-- C8, refuted as stated: the request gives the number 123 as the value of the
variable `$u` of type `String!` that stands for `username`. The value is not
a string, yet the request is not refused: graphql-go coerces the number to
the string `123`, the resolver runs with it, and the response carries data
and no error. -/
theorem variable_value_counterexample :
    (∀ s, numberVariableRequest.VariableValues.lookup "u" ≠ some (.string s)) ∧
    Do numberVariableRequest (some (mainContext (.session 1)))
        (Store.mk [⟨1, "123", "n@x.com", "p"⟩] none) =
      (.executed (some [("password", .string "p")]) [],
        [.Select (.session 1) whereCond ["123", ""]],
        Store.mk [⟨1, "123", "n@x.com", "p"⟩] none) ∧
    (Do numberVariableRequest (some (mainContext (.session 1)))
        (Store.mk [⟨1, "123", "n@x.com", "p"⟩] none)).1 ≠ .refused ∧
    (Do numberVariableRequest (some (mainContext (.session 1)))
        (Store.mk [⟨1, "123", "n@x.com", "p"⟩] none)).1.hasErrors = false := by
  refine ⟨?_, by decide, by decide, by decide⟩
  intro s hs
  simp [numberVariableRequest, List.lookup] at hs

/-- C8, amended: the root field `user` declares exactly the arguments `username` and
`email`, both of type non-null String, and its type `User` has exactly the
fields id (Int), username, email and password (String). A request is refused
before the resolver runs (null data, an error list that is not empty,
nothing printed, no SELECT sent) when, for `username` or for `email`, it
does not write the argument, or writes it with a literal that is not a
string (null included), or writes it with a variable that is not defined
with type `String!`, or with a variable that gets no value or the value
null; so is a request that writes any other argument. A value that is not
null and not a string, given to a variable of type `String!`, is not among
these cases. -/
theorem bad_arguments_are_refused (req : Request) (ctx : Option Context) (st : Store)
    (name : String)
    (hname : name = "username" ∨ name = "email")
    (hbad : (∀ v, (name, v) ∉ req.arguments) ∨
      (∃ l, (name, ArgValue.literal l) ∈ req.arguments ∧ ∀ s, l ≠ .StringValue s) ∨
      (∃ v, (name, ArgValue.variable v) ∈ req.arguments ∧
        (req.variableDefinitions.lookup v ≠ some (.NonNull .String) ∨
          req.VariableValues.lookup v = none ∨ req.VariableValues.lookup v = some .null))) :
    (∀ n t, (n, t) ∈ userField.Args ↔ (n = "username" ∨ n = "email") ∧ t = .NonNull .String) ∧
    userField.Type_ = userType ∧ userType.Name = "User" ∧
    (∀ n s, (n, s) ∈ userType.Fields ↔
      (n = "id" ∧ s = .Int) ∨ ((n = "username" ∨ n = "email" ∨ n = "password") ∧ s = .String)) ∧
    Do req ctx st = (.refused, [], st) ∧
    (Do req ctx st).1.hasErrors = true ∧
    ∀ (other : Request) (a : String × ArgValue), a ∈ other.arguments →
      a.1 ≠ "username" → a.1 ≠ "email" → Do other ctx st = (.refused, [], st) := by
  have hD : Do req ctx st = (.refused, [], st) := by
    rcases hbad with hmiss | ⟨l, hl, hns⟩ | ⟨v, hv, hcase⟩
    · exact Do_of_invalid req ctx st (validate_of_missing req name hname hmiss)
    · exact Do_of_invalid req ctx st (validate_of_bad_literal req name l hname hl hns)
    · by_cases hdef : req.variableDefinitions.lookup v = some (.NonNull .String)
      · rcases hcase with h1 | h2
        · exact absurd hdef h1
        · exact Do_of_refused_variable req ctx st
            (getVariableValues_of_null _ _ v hdef h2)
      · exact Do_of_invalid req ctx st (validate_of_bad_variable req name v hname hv hdef)
  refine ⟨?_, rfl, rfl, ?_, hD, by rw [hD]; rfl, ?_⟩
  · intro n t
    simp only [userField, List.mem_cons, Prod.mk.injEq, List.mem_singleton, List.not_mem_nil,
      or_false]
    constructor
    · rintro (⟨h1, h2⟩ | ⟨h1, h2⟩)
      · exact ⟨Or.inl h1, h2⟩
      · exact ⟨Or.inr h1, h2⟩
    · rintro ⟨h1 | h1, h2⟩
      · exact Or.inl ⟨h1, h2⟩
      · exact Or.inr ⟨h1, h2⟩
  · intro n sc
    simp only [userType, List.mem_cons, Prod.mk.injEq, List.mem_singleton, List.not_mem_nil,
      or_false]
    constructor
    · rintro (⟨h1, h2⟩ | ⟨h1, h2⟩ | ⟨h1, h2⟩ | ⟨h1, h2⟩)
      · exact Or.inl ⟨h1, h2⟩
      · exact Or.inr ⟨Or.inl h1, h2⟩
      · exact Or.inr ⟨Or.inr (Or.inl h1), h2⟩
      · exact Or.inr ⟨Or.inr (Or.inr h1), h2⟩
    · rintro (⟨h1, h2⟩ | ⟨h1 | h1 | h1, h2⟩)
      · exact Or.inl ⟨h1, h2⟩
      · exact Or.inr (Or.inl ⟨h1, h2⟩)
      · exact Or.inr (Or.inr (Or.inl ⟨h1, h2⟩))
      · exact Or.inr (Or.inr (Or.inr ⟨h1, h2⟩))
  · intro other a ha h1 h2
    exact Do_of_invalid other ctx st (validate_of_unknown other a ha h1 h2)

/-- Witness of `bad_arguments_are_refused`: a variable that gets no value, a number
literal for `username`, and a request that does not write `email`. -/
theorem bad_arguments_are_refused_witness :
    Do ⟨[("u", .NonNull .String)],
        [("username", .variable "u"), ("email", .literal (.StringValue ""))],
        ["password"], []⟩
        (some (mainContext (.session 1))) (Store.mk [⟨1, "123", "n@x.com", "p"⟩] none) =
      (.refused, [], Store.mk [⟨1, "123", "n@x.com", "p"⟩] none) ∧
    Do ⟨[], [("username", .literal (.IntValue 123)), ("email", .literal (.StringValue ""))],
        ["password"], []⟩
        (some (mainContext (.session 1))) (Store.mk [⟨1, "123", "n@x.com", "p"⟩] none) =
      (.refused, [], Store.mk [⟨1, "123", "n@x.com", "p"⟩] none) ∧
    Do ⟨[], [("username", .literal (.StringValue "123"))], ["password"], []⟩
        (some (mainContext (.session 1))) (Store.mk [⟨1, "123", "n@x.com", "p"⟩] none) =
      (.refused, [], Store.mk [⟨1, "123", "n@x.com", "p"⟩] none) :=
  ⟨(bad_arguments_are_refused
      ⟨[("u", .NonNull .String)],
        [("username", .variable "u"), ("email", .literal (.StringValue ""))],
        ["password"], []⟩
      (some (mainContext (.session 1))) (Store.mk [⟨1, "123", "n@x.com", "p"⟩] none)
      "username" (Or.inl rfl)
      (Or.inr (Or.inr ⟨"u", by decide, Or.inr (Or.inl rfl)⟩))).2.2.2.2.1,
   (bad_arguments_are_refused
      ⟨[], [("username", .literal (.IntValue 123)), ("email", .literal (.StringValue ""))],
        ["password"], []⟩
      (some (mainContext (.session 1))) (Store.mk [⟨1, "123", "n@x.com", "p"⟩] none)
      "username" (Or.inl rfl)
      (Or.inr (Or.inl ⟨.IntValue 123, by decide, by intro s hs; cases hs⟩))).2.2.2.2.1,
   (bad_arguments_are_refused
      ⟨[], [("username", .literal (.StringValue "123"))], ["password"], []⟩
      (some (mainContext (.session 1))) (Store.mk [⟨1, "123", "n@x.com", "p"⟩] none)
      "email" (Or.inr rfl)
      (Or.inl (by intro v hv; simp at hv))).2.2.2.2.1⟩

/-- C9, refuted as stated: the resolver panics with a nil dereference when its
context is the nil interface (the method call of login.go 65) and when the
context carries a pointer to a `gorm.DB` that `gorm.Open` did not make (the
call `db.Where` of login.go 82, behind both guards); graphql-go recovers the
panic into the error list. -/
theorem Resolve_panics_counterexample :
    Resolve ⟨none, [("username", .string "alice"), ("email", .string "")]⟩
        (Store.mk [⟨1, "alice", "a@x.com", "p1"⟩] none) = .panics nilDereference ∧
    Resolve ⟨some (mainContext (.zero 1)), [("username", .string "alice"), ("email", .string "")]⟩
        (Store.mk [⟨1, "alice", "a@x.com", "p1"⟩] none) = .panics nilDereference ∧
    (¬ ∃ o, Resolve ⟨none, [("username", .string "alice"), ("email", .string "")]⟩
        (Store.mk [⟨1, "alice", "a@x.com", "p1"⟩] none) = .returns o) ∧
    (Do (userQuery "alice" "" ["password"]) none
        (Store.mk [⟨1, "alice", "a@x.com", "p1"⟩] none)).1 =
      .executed none [.recovered nilDereference] := by
  refine ⟨by decide, by decide, ?_, by decide⟩
  rintro ⟨o, ho⟩
  rw [Resolve_of_nil_context _ _ rfl] at ho
  cases ho

/-- C9, amended: for every context that is not nil and whose `"db"` value is not a
pointer to a `gorm.DB` that `gorm.Open` did not make, and for every argument
map and store, the resolver returns a (result, error) pair and does not
panic. The lookup goes on with `username` and `email` replaced by the empty
string when absent or not a string: the run equals the run on the argument
map that holds these two strings, a returned row has one of them, and with a
session and a healthy store a row that has one of them makes the resolver
return a row. With a session, a failure of the store is the returned error,
with a nil result. -/
theorem Resolve_returns_pair (p : ResolveParams) (ctx : Context) (st : Store)
    (username email : String)
    (hc : p.Context = some ctx)
    (hz : ∀ a, ctx.Value (.string "db") ≠ .gormDB (.zero a))
    (hu : username = match p.Args.lookup "username" with
      | some (.string s) => s
      | _ => "")
    (he : email = match p.Args.lookup "email" with
      | some (.string s) => s
      | _ => "") :
    ∃ o, Resolve p st = .returns o ∧
      Resolve ⟨some ctx, [("username", .string username), ("email", .string email)]⟩ st =
        .returns o ∧
      (∀ r, o.result = some r → r ∈ st.users ∧ (r.Username = username ∨ r.Email = email)) ∧
      ∀ h, ctx.Value (.string "db") = .gormDB (.session h) →
        (∀ c, st.fault = some c → o.result = none ∧ o.err = some (.storeFailure c)) ∧
        (st.fault = none → ∀ r0 ∈ st.users, (r0.Username = username ∨ r0.Email = email) →
          ∃ r, o.result = some r ∧ o.err = none) := by
  have hu' : (assertString (mapIndex p.Args "username")).1 = username := by
    rw [assertString_mapIndex, hu]
  have he' : (assertString (mapIndex p.Args "email")).1 = email := by
    rw [assertString_mapIndex, he]
  have hcu : (assertString (mapIndex [("username", GoValue.string username),
      ("email", GoValue.string email)] "username")).1 = username := by
    simp [mapIndex, List.lookup, assertString]
  have hce : (assertString (mapIndex [("username", GoValue.string username),
      ("email", GoValue.string email)] "email")).1 = email := by
    simp [mapIndex, List.lookup, assertString]
  rcases db_value_cases ctx with ⟨a, ha⟩ | ⟨a, ha⟩ | hn
  · have hrun := Resolve_of_session p ctx st a hc ha
    rw [hu', he'] at hrun
    have hrun2 := Resolve_of_session
      ⟨some ctx, [("username", .string username), ("email", .string email)]⟩ ctx st a rfl ha
    simp only [hcu, hce] at hrun2
    refine ⟨_, hrun, hrun2, ?_, ?_⟩
    · intro r hr
      have key := Resolve_row p st _ r hrun hr
      rw [hu', he'] at key
      exact ⟨key.1, key.2.1⟩
    · intro h _
      refine ⟨?_, ?_⟩
      · intro c hfault
        rw [First_of_fault st _ _ c hfault]
        exact ⟨rfl, rfl⟩
      · intro hst r0 hr0 hm0
        obtain ⟨r, hF, _⟩ := First_of_row st whereCond [username, email] hst r0 hr0
          ((whereCond_holds username email r0).mpr hm0)
        rw [hF]
        exact ⟨r, rfl, rfl⟩
  · exact absurd ha (hz a)
  · have hrun := Resolve_of_no_handle p ctx st hc hn
    have hrun2 := Resolve_of_no_handle
      ⟨some ctx, [("username", .string username), ("email", .string email)]⟩ ctx st rfl hn
    refine ⟨_, hrun, hrun2, ?_, ?_⟩
    · intro r hr
      simp at hr
    · intro h hh
      have := hn _ hh
      cases this

/-- Witness of `Resolve_returns_pair`: `username` is a number and `email` is absent;
on a healthy store the row whose username is empty is returned, on an
unreachable store the failure is. -/
theorem Resolve_returns_pair_witness :
    (∃ o, Resolve ⟨some (mainContext (.session 1)), [("username", .int 7)]⟩
        (Store.mk [⟨1, "alice", "a@x.com", "p1"⟩, ⟨5, "", "e@x.com", "p5"⟩] none) = .returns o ∧
      ∃ r, o.result = some r ∧ o.err = none ∧ (r.Username = "" ∨ r.Email = "")) ∧
    (∃ o, Resolve ⟨some (mainContext (.session 1)), [("username", .int 7)]⟩
        (Store.mk [⟨1, "alice", "a@x.com", "p1"⟩] (some "timeout")) = .returns o ∧
      o.result = none ∧ o.err = some (.storeFailure "timeout")) := by
  constructor
  · obtain ⟨o, ho, _, hrow, hall⟩ := Resolve_returns_pair
      ⟨some (mainContext (.session 1)), [("username", .int 7)]⟩ (mainContext (.session 1))
      (Store.mk [⟨1, "alice", "a@x.com", "p1"⟩, ⟨5, "", "e@x.com", "p5"⟩] none) "" "" rfl
      (by intro a ha; simp [mainContext, Context.Value] at ha) (by decide) (by decide)
    obtain ⟨r, hr, herr⟩ := (hall 1 (by decide)).2 rfl ⟨5, "", "e@x.com", "p5"⟩ (by decide)
      (by decide)
    exact ⟨o, ho, r, hr, herr, (hrow r hr).2⟩
  · obtain ⟨o, ho, _, _, hall⟩ := Resolve_returns_pair
      ⟨some (mainContext (.session 1)), [("username", .int 7)]⟩ (mainContext (.session 1))
      (Store.mk [⟨1, "alice", "a@x.com", "p1"⟩] (some "timeout")) "" "" rfl
      (by intro a ha; simp [mainContext, Context.Value] at ha) (by decide) (by decide)
    exact ⟨o, ho, (hall 1 (by decide)).1 "timeout" rfl⟩

/-- C10: for every session `db` made by `gorm.Open` and every incoming request, the
middleware `setDBContext(db)` passes control to the next handler with the
request context extended by the binding of `"db"` to `db`; in that context,
and in the context built in `main`, the key `"db"` yields that very handle
and every other key yields what the original context yields; the resolver
run with either context takes neither diagnostic branch and sends its
SELECT through `db`. -/
theorem setDBContext_injects_handle {α : Type} (db : Nat) (c : GinContext)
    (Next : GinContext → α) (args : List (String × GoValue)) (st : Store) :
    setDBContext (.session db) Next c =
      Next ⟨⟨Context.WithValue c.Request.Context (.string "db") (.gormDB (.session db))⟩⟩ ∧
    (∀ key, (setDBContext (.session db) (fun c1 => c1.Request.Context) c).Value key =
      if key = .string "db" then .gormDB (.session db) else c.Request.Context.Value key) ∧
    (∀ key, (mainContext (.session db)).Value key =
      if key = .string "db" then .gormDB (.session db) else Context.Background.Value key) ∧
    (∃ o, Resolve ⟨some (setDBContext (.session db) (fun c1 => c1.Request.Context) c), args⟩ st =
        .returns o ∧
      o.effects = [.Select (.session db) whereCond [(assertString (mapIndex args "username")).1,
        (assertString (mapIndex args "email")).1]]) ∧
    (∃ o, Resolve ⟨some (mainContext (.session db)), args⟩ st = .returns o ∧
      o.effects = [.Select (.session db) whereCond [(assertString (mapIndex args "username")).1,
        (assertString (mapIndex args "email")).1]]) := by
  have hval : ∀ (parent : Context) (key : GoValue),
      (Context.WithValue parent (.string "db") (.gormDB (.session db))).Value key =
        if key = .string "db" then .gormDB (.session db) else parent.Value key := by
    intro parent key
    by_cases hk : key = .string "db"
    · subst hk
      simp [Context.Value]
    · have hk2 : ¬ (GoValue.string "db" = key) := fun h => hk h.symm
      simp [Context.Value, hk, hk2]
  refine ⟨rfl, ?_, ?_, ?_, ?_⟩
  · intro key
    exact hval _ key
  · intro key
    exact hval _ key
  · exact ⟨_, Resolve_of_session _ _ st db rfl (by simp [setDBContext, HttpRequest.WithContext,
      Context.Value]), rfl⟩
  · exact ⟨_, Resolve_of_session _ _ st db rfl (by simp [mainContext, Context.Value]), rfl⟩

end Login
